import Mathlib

/- Verification of src/tlc/the_last_compiler.py against its specification.

   Shallow embedding conventions:
   - Python strings are modelled as `List Char`.
   - The file system is an association list of (path, contents) pairs,
     newest entry first: `read` returns the first match, so
     write-then-read semantics agree with a mutable file system.
   - The external code-generation agent is opaque: its exit code is a
     parameter `agentExit : Nat` threaded into the functions that call it.
   - Python truthiness of the `bool / int` values returned by
     `compile_module` is modelled by the `PyVal` type below.
   - Python `str.lower` is modelled by `Char.toLower` (ASCII letters,
     which covers every character relevant to the token search). -/

namespace TLC

/-- Single-character substitution `str.replace('-', '_')`. -/
def hyphToUnd (c : Char) : Char := if c = '-' then '_' else c

/-- Single-character substitution `str.replace('_', '-')`. -/
def undToHyph (c : Char) : Char := if c = '_' then '-' else c

/-- The markdown extension ".md". -/
def mdExt : List Char := ['.', 'm', 'd']

/-- os.path.basename: the part of the path after the last slash. -/
def basename (p : List Char) : List Char :=
  (p.reverse.takeWhile (fun c => c != '/')).reverse

/-- convert_name (the_last_compiler.py lines 52-59): converts between a
markdown file name and a Python module name, dispatching on whether the
input ends in ".md". -/
def convert_name (name : List Char) : List Char :=
  if mdExt.isSuffixOf name then
    (name.take (name.length - 3)).map hyphToUnd
  else
    name.map undToHyph ++ mdExt

/-- The literal token searched for by the test-strategy heuristic. -/
def testToken : List Char := ['t', 'e', 's', 't']

/-- Line 71: `test_strategy = "test" in spec_content.lower()` — a
case-insensitive substring search for "test" in the spec content. -/
def test_strategy (spec_content : List Char) : Bool :=
  decide (testToken <:+: spec_content.map Char.toLower)

/-- File-system model: association list of (path, contents), newest first. -/
structure FS where
  files : List (List Char × List Char)
deriving DecidableEq

/-- Reading a file returns the contents of the newest entry for the path. -/
def FS.read (fs : FS) (p : List Char) : Option (List Char) :=
  (fs.files.find? (fun kv => kv.1 == p)).map Prod.snd

/-- Writing a file (Python `open(p, 'w')` followed by `write`). -/
def FS.write (fs : FS) (p c : List Char) : FS :=
  ⟨(p, c) :: fs.files⟩

/-- os.path.exists for this model. -/
def FS.pathExists (fs : FS) (p : List Char) : Bool :=
  (fs.read p).isSome

/-- The apostrophe character (appears once in the prompt template text). -/
def apos : Char := Char.ofNat 39

/-- The fixed path the rendered prompt is written to (line 85). -/
def promptPath : List Char := ("bin/prompt/the_last_compiler.md").data

/-- The rendered CLAUDE_PROMPT_TEMPLATE (lines 10-34) with the Jinja2
variables substituted.  The conditional block renders exactly when
`test_strategy` is true; the newline following each block tag is kept,
matching default Jinja2 whitespace handling, and the template's single
trailing newline is stripped. -/
def CLAUDE_PROMPT_rendered (module_name command_name : List Char)
    (ts : Bool) (specification : List Char) : List Char :=
  ("\n# Instructions for implementing a Python module\n\nRead the spec below and consider its feasibility: is it well defined enough to implement in a single python module? Are there any important unanswered questions? Are there any things you don").data
  ++ [apos]
  ++ ("t know how to do? Are any of these blockers to proceeding?\n\nIf no, Stop, and summarise why you cannot yet implement this spec as an error.\n\nIf yes, describe what we need to do to implement this module, then implement it.\n\nThe module should be created at tlc/").data
  ++ module_name ++ (".py\n").data
  ++ (if ts then
        ("\nIf a test strategy is specified, implement it in tlc/tests/test_").data
        ++ module_name ++ (".py\n").data
      else [])
  ++ ("\n\nUpdate the pyproject.toml file to add the new module entry point, using this format:\n```python\n[project.scripts]\n").data
  ++ command_name ++ (" = \"tlc.").data ++ module_name
  ++ (":main\"\n```\n\nThis script should be sufficient to implement the module. You must only add the ").data
  ++ module_name
  ++ (".py module and edit the pyproject.toml file if needed.\n\n# Module Specification\n").data
  ++ specification

/-- render_prompt (lines 62-88): reads the spec file (None models the
exception raised when the file is missing), derives the module and
command names, computes the test-strategy flag, and writes the rendered
prompt to the fixed prompt path. -/
def render_prompt (fs : FS) (spec_path : List Char) : Option (List Char × FS) :=
  match fs.read spec_path with
  | none => none
  | some spec_content =>
      let module_name := convert_name (basename spec_path)
      let command_name := module_name.map undToHyph
      let prompt := CLAUDE_PROMPT_rendered module_name command_name
        (test_strategy spec_content) spec_content
      some (prompt, fs.write promptPath prompt)

/-- Python truthiness for the `bool / int` values flowing out of
compile_module: `False` and `0` are falsy, non-zero ints truthy. -/
inductive PyVal where
  | bool (b : Bool)
  | int (n : Nat)
deriving DecidableEq

/-- Truthiness test applied by `if`/`not` in Python. -/
def PyVal.truthy : PyVal → Bool
  | .bool b => b
  | .int n => n != 0

/-- compile_module (lines 120-128): returns False when the spec file is
missing; otherwise renders the prompt (writing the prompt file) and
returns the agent subprocess's exit code as an int. -/
def compile_module (fs : FS) (spec_path : List Char) (agentExit : Nat) :
    PyVal × FS :=
  match render_prompt fs spec_path with
  | none => (PyVal.bool false, fs)
  | some (_, fs1) => (PyVal.int agentExit, fs1)

/-- The `compile` branch of main (lines 200-201):
`return 0 if compile_module(args.spec_file) else 1`. -/
def main_compile (fs : FS) (spec_path : List Char) (agentExit : Nat) :
    Nat × FS :=
  let r := compile_module fs spec_path agentExit
  (if r.1.truthy then 0 else 1, r.2)

/-- The canonical compiled-module path `tlc/{module_name}.py` (line 134). -/
def module_path_of (spec_path : List Char) : List Char :=
  ("tlc/").data ++ convert_name (basename spec_path) ++ (".py").data

/-- ensure_module_compiled (lines 131-140).  The third component of the
result is instrumentation recording whether compile_module was invoked
(true) or skipped because the module file already exists (false). -/
def ensure_module_compiled (fs : FS) (spec_path : List Char)
    (agentExit : Nat) : Bool × FS × Bool :=
  if fs.pathExists (module_path_of spec_path) then (true, fs, false)
  else
    let r := compile_module fs spec_path agentExit
    if r.1.truthy then (true, r.2, true) else (false, r.2, true)

/-- The target file name of `new`: ".md" is appended when missing
(lines 99-100). -/
def target_spec_name (module_name : List Char) : List Char :=
  if mdExt.isSuffixOf module_name then module_name else module_name ++ mdExt

/-- The python module identifier derived inside create_new_module
(lines 109-111): basename, hyphens to underscores, then strip ".md". -/
def python_module_of (target : List Char) : List Char :=
  let p := (basename target).map hyphToUnd
  if mdExt.isSuffixOf p then p.take (p.length - 3) else p

/-- NEW_MODULE_TEMPLATE (lines 36-49) split around its one placeholder. -/
def NEW_MODULE_pre : List Char := ("# ").data

/-- The part of NEW_MODULE_TEMPLATE after the `{module_name}` placeholder. -/
def NEW_MODULE_post : List Char :=
  (".py\n\n## Inputs\n\nTODO define inputs\n\n## Outputs\n\nTODO define outputs\n\n## Implementation\n\nTODO define implementation. Be really specific about what code to write, and where to write it.\n").data

/-- NEW_MODULE_TEMPLATE.format(module_name=m) (line 113). -/
def newModuleContent (m : List Char) : List Char :=
  NEW_MODULE_pre ++ m ++ NEW_MODULE_post

/-- create_new_module (lines 97-117): appends ".md" when missing, fails
without writing when the target exists, otherwise writes the placeholder
template for the derived module identifier. -/
def create_new_module (fs : FS) (module_name : List Char) : Bool × FS :=
  let target := target_spec_name module_name
  if fs.pathExists target then (false, fs)
  else (true, fs.write target (newModuleContent (python_module_of target)))

/-- The `new` branch of main (lines 198-199):
`return 0 if create_new_module(args.spec_file) else 1`. -/
def main_new (fs : FS) (spec_file : List Char) : Nat × FS :=
  let r := create_new_module fs spec_file
  (if r.1 then 0 else 1, r.2)

/-- Modelled from the spec: the Manifest Patcher of section 4.3 is absent
from src/ (the program delegates manifest editing to the external agent
via the prompt), so the bracketed section header it locates is modelled
from the spec's words and the example manifest section name. -/
def scripts_header : List Char := ("[project.scripts]").data

/-- Modelled from the spec: the single declarative ManifestEntry line
`foo-bar = "tlc.foo_bar:main"` mapping the command name (hyphen form) to
the module's entry function. -/
def entry_line (module_id : List Char) : List Char :=
  module_id.map undToHyph ++ (" = \"tlc.").data ++ module_id ++ (":main\"").data

/-- Modelled from the spec: a manifest line is a bracketed section header
when it starts with an opening bracket. -/
def is_section_header (l : List Char) : Bool := l.head? == some '['

/-- Modelled from the spec: the position just past the last line of the
section whose header sits at index i — the insertion point "immediately
before the next bracketed header or end-of-file". -/
def section_end (lines : List (List Char)) (i : Nat) : Nat :=
  i + 1 + ((lines.drop (i + 1)).takeWhile (fun l => !is_section_header l)).length

/-- Modelled from the spec: registerEntry of section 4.3, on a manifest
represented as a list of lines.  If the exact entry line already exists
the call is a no-op; else if the scripts header exists the entry is
appended as the last line of that section (immediately before the next
bracketed header or end-of-file); else a blank line, the header and the
entry are appended at the end of the manifest. -/
def register_entry (lines : List (List Char)) (module_id : List Char) :
    List (List Char) :=
  if entry_line module_id ∈ lines then lines
  else
    match lines.findIdx? (fun l => l == scripts_header) with
    | some i =>
        lines.take (section_end lines i)
          ++ entry_line module_id :: lines.drop (section_end lines i)
    | none => lines ++ [[], scripts_header, entry_line module_id]

/-! Helper lemmas shared by the claim theorems. -/

/-- Reading a path other than the one just written is unaffected. -/
theorem FS.read_write_ne (fs : FS) (p q c : List Char) (h : q ≠ p) :
    (fs.write p c).read q = fs.read q := by
  unfold FS.write FS.read
  simp only [List.find?]
  have : ((p, c).1 == q) = false := by
    simp only [beq_eq_false_iff_ne, ne_eq]
    exact fun hpq => h hpq.symm
  simp [this]

/-- The `new` command when the target spec file exists. -/
theorem main_new_of_exists (fs : FS) (name : List Char)
    (h : fs.pathExists (target_spec_name name) = true) :
    main_new fs name = (1, fs) := by
  unfold main_new create_new_module
  simp [h]

/-- The `new` command when the target spec file is absent. -/
theorem main_new_of_absent (fs : FS) (name : List Char)
    (h : fs.pathExists (target_spec_name name) = false) :
    main_new fs name = (0, fs.write (target_spec_name name)
      (newModuleContent (python_module_of (target_spec_name name)))) := by
  unfold main_new create_new_module
  simp [h]

/-! Concrete file systems used by the closed theorems and witnesses. -/

/-- A file system holding just one spec file. -/
def fsC1 : FS := ⟨[(("foo-bar.md").data, ("Spec body.").data)]⟩

/-- A pyproject.toml content without an entry for foo-bar. -/
def manifest0 : List Char :=
  ("[project]\nname = \"tlc\"\n\n[project.scripts]\ntlc = \"tlc.the_last_compiler:main\"\n").data

/-- A file system holding a spec file and a manifest without the entry. -/
def fsC2 : FS :=
  ⟨[(("foo-bar.md").data, ("Spec body.").data),
    (("pyproject.toml").data, manifest0)]⟩

/-- A file system where the compiled module file already exists. -/
def fsC6 : FS :=
  ⟨[(("foo-bar.md").data, ("Anything at all.").data),
    (("tlc/foo_bar.py").data, ("pass").data)]⟩

/-- A file system where the target spec file of `new` already exists. -/
def fsC7 : FS := ⟨[(("foo-bar.md").data, ("Existing spec.").data)]⟩

/-- C1: the claim says the compile sub-command exits 0 when the agent
exits 0 and otherwise surfaces the agent's non-zero code (or 1).  The
code inverts this: `main` returns `0 if compile_module(...) else 1`, but
compile_module returns the agent's exit code, whose Python truthiness is
false exactly on success — so an agent exit of 0 yields process exit 1
and an agent exit of 2 yields process exit 0. -/
theorem compile_exit_code_inverted :
    (main_compile fsC1 (("foo-bar.md").data) 0).1 = 1 ∧
    (main_compile fsC1 (("foo-bar.md").data) 2).1 = 0 := by decide

set_option maxRecDepth 20000 in
/-- C2 counterexample: with the spec present and a manifest lacking the
entry, an agent exit of 0 leaves the manifest byte-identical and the
module's entry line is still nowhere in it — the orchestrator never
patches the manifest, refuting the claim's success branch. -/
theorem compile_success_leaves_manifest_unregistered :
    (compile_module fsC2 (("foo-bar.md").data) 0).1 = PyVal.int 0 ∧
    ((compile_module fsC2 (("foo-bar.md").data) 0).2).read (("pyproject.toml").data)
      = some manifest0 ∧
    ¬ (entry_line (("foo_bar").data) <:+: manifest0) := by decide

/-- C2 (amended): compile_module writes no path other than the fixed
prompt file; in particular the manifest is untouched for every agent
exit code — on non-zero exit the code is surfaced and nothing further
happens, and manifest registration is never performed by the
orchestrator (the prompt delegates it to the external agent). -/
theorem compile_touches_only_prompt_file (fs : FS) (spec_path : List Char)
    (agentExit : Nat) (p : List Char) (h : p ≠ promptPath) :
    ((compile_module fs spec_path agentExit).2).read p = fs.read p := by
  unfold compile_module render_prompt
  cases hr : fs.read spec_path with
  | none => rfl
  | some content =>
      exact FS.read_write_ne fs promptPath p _ h

/-- Witness for the amended C2 theorem at a concrete input. -/
theorem compile_touches_only_prompt_file_w :
    ((compile_module fsC2 (("foo-bar.md").data) 2).2).read (("pyproject.toml").data)
      = fsC2.read (("pyproject.toml").data) :=
  compile_touches_only_prompt_file fsC2 (("foo-bar.md").data) 2
    (("pyproject.toml").data) (by decide)

/-- C6: when the derived compiled-module path `tlc/{module_name}.py`
already exists, ensure_module_compiled returns success without invoking
compile and without touching the file system, for every agent exit code
and every spec content (the check is existence-only). -/
theorem ensure_compiled_skips_agent (fs : FS) (spec_path : List Char)
    (agentExit : Nat)
    (h : fs.pathExists (module_path_of spec_path) = true) :
    ensure_module_compiled fs spec_path agentExit = (true, fs, false) := by
  unfold ensure_module_compiled
  simp [h]

/-- Witness for the C6 theorem at a concrete input. -/
theorem ensure_compiled_skips_agent_w :
    ensure_module_compiled fsC6 (("foo-bar.md").data) 7 = (true, fsC6, false) :=
  ensure_compiled_skips_agent fsC6 (("foo-bar.md").data) 7 (by decide)

/-- C7: when the target spec file of `new` exists the command exits 1
and the file system (hence the existing file's content) is unchanged;
when it is absent the command exits 0 and writes exactly the fixed
placeholder template for the derived module identifier. -/
theorem create_new_module_behavior (fs : FS) (name : List Char) :
    (fs.pathExists (target_spec_name name) = true → main_new fs name = (1, fs)) ∧
    (fs.pathExists (target_spec_name name) = false →
      main_new fs name = (0, fs.write (target_spec_name name)
        (newModuleContent (python_module_of (target_spec_name name))))) :=
  ⟨main_new_of_exists fs name, main_new_of_absent fs name⟩

/-- Witness for the C7 theorem at concrete inputs. -/
theorem create_new_module_behavior_w :
    main_new fsC7 (("foo-bar.md").data) = (1, fsC7) ∧
    main_new ⟨[]⟩ (("foo-bar.md").data)
      = (0, FS.write ⟨[]⟩ (target_spec_name (("foo-bar.md").data))
          (newModuleContent (python_module_of (target_spec_name (("foo-bar.md").data))))) :=
  ⟨(create_new_module_behavior fsC7 (("foo-bar.md").data)).1 (by decide),
   (create_new_module_behavior ⟨[]⟩ (("foo-bar.md").data)).2 (by decide)⟩

/-- C10: for a `new` argument not ending in ".md" the extension is
appended before anything else: the target is `name ++ ".md"`, the
existence check is made on that target, and on absence the file
`name.md` is created with the placeholder for the derived module. -/
theorem new_appends_md_before_check (fs : FS) (name : List Char)
    (h : mdExt.isSuffixOf name = false) :
    target_spec_name name = name ++ mdExt ∧
    (fs.pathExists (name ++ mdExt) = true → main_new fs name = (1, fs)) ∧
    (fs.pathExists (name ++ mdExt) = false →
      main_new fs name = (0, fs.write (name ++ mdExt)
        (newModuleContent (python_module_of (name ++ mdExt))))) := by
  have ht : target_spec_name name = name ++ mdExt := by
    unfold target_spec_name
    simp [h]
  refine ⟨ht, ?_, ?_⟩
  · intro hx
    exact main_new_of_exists fs name (by rw [ht]; exact hx)
  · intro hx
    have hmain := main_new_of_absent fs name (by rw [ht]; exact hx)
    rw [ht] at hmain
    exact hmain

/-- Witness for the C10 theorem at a concrete input. -/
theorem new_appends_md_before_check_w :
    target_spec_name (("foo").data) = ("foo").data ++ mdExt ∧
    main_new ⟨[]⟩ (("foo").data)
      = (0, FS.write ⟨[]⟩ (("foo").data ++ mdExt)
          (newModuleContent (python_module_of (("foo").data ++ mdExt)))) :=
  ⟨(new_appends_md_before_check ⟨[]⟩ (("foo").data) (by decide)).1,
   (new_appends_md_before_check ⟨[]⟩ (("foo").data) (by decide)).2.2 (by decide)⟩

/-! Lemmas about the modelled Manifest Patcher. -/

/-- The entry line is never the empty line. -/
theorem entry_line_length (m : List Char) :
    (entry_line m).length = 2 * m.length + 14 := by
  have h1 : ((" = \"tlc.").data).length = 8 := by decide
  have h2 : (((":main\"").data)).length = 6 := by decide
  simp [entry_line, h1, h2]
  omega

/-- The entry line is not the empty manifest line. -/
theorem entry_line_ne_nil (m : List Char) : entry_line m ≠ [] := by
  intro h
  have hl := congrArg List.length h
  rw [entry_line_length] at hl
  simp at hl

/-- The entry line is never the scripts section header. -/
theorem entry_line_ne_header (m : List Char) : entry_line m ≠ scripts_header := by
  intro h
  have hl := congrArg List.length h
  rw [entry_line_length] at hl
  have h17 : scripts_header.length = 17 := by decide
  rw [h17] at hl
  omega

/-- Registering an entry that is already present verbatim is a no-op. -/
theorem register_entry_of_mem (lines : List (List Char)) (m : List Char)
    (h : entry_line m ∈ lines) : register_entry lines m = lines := by
  unfold register_entry
  simp [h]

/-- The entry line is present after any registration. -/
theorem mem_register_entry (lines : List (List Char)) (m : List Char) :
    entry_line m ∈ register_entry lines m := by
  by_cases h : entry_line m ∈ lines
  · rw [register_entry_of_mem lines m h]
    exact h
  · unfold register_entry
    rw [if_neg h]
    cases hf : lines.findIdx? (fun l => l == scripts_header) with
    | some i => simp
    | none => simp

/-- C3: manifest registration is idempotent — a second registration of
the same module identifier returns a byte-identical manifest — and it
preserves the invariant that at most one entry line for the module
identifier exists in the manifest. -/
theorem register_entry_idem_unique (lines : List (List Char)) (m : List Char) :
    register_entry (register_entry lines m) m = register_entry lines m ∧
    (List.count (entry_line m) lines ≤ 1 →
      List.count (entry_line m) (register_entry lines m) ≤ 1) := by
  constructor
  · exact register_entry_of_mem _ _ (mem_register_entry lines m)
  · intro hc
    by_cases h : entry_line m ∈ lines
    · rw [register_entry_of_mem lines m h]
      exact hc
    · have h0 : List.count (entry_line m) lines = 0 := List.count_eq_zero.mpr h
      unfold register_entry
      rw [if_neg h]
      cases hf : lines.findIdx? (fun l => l == scripts_header) with
      | some i =>
          have hparts : List.count (entry_line m) (lines.take (section_end lines i))
              + List.count (entry_line m) (lines.drop (section_end lines i)) = 0 := by
            rw [← List.count_append, List.take_append_drop]
            exact h0
          simp only [List.count_append, List.count_cons_self]
          omega
      | none =>
          have h3 : List.count (entry_line m) [[], scripts_header, entry_line m] = 1 := by
            simp [List.count_cons, entry_line_ne_nil m, entry_line_ne_header m]
          simp only [List.count_append, h0, h3]
          omega

/-- A concrete manifest with a scripts section followed by another section. -/
def manifestLines : List (List Char) :=
  [("[project]").data, ("name = \"tlc\"").data, [],
   ("[project.scripts]").data, ("tlc = \"tlc.the_last_compiler:main\"").data,
   ("[tool.x]").data, ("y = 1").data]

/-- Witness for the C3 theorem at a concrete manifest. -/
theorem register_entry_idem_unique_w :
    List.count (entry_line (("foo_bar").data)) manifestLines ≤ 1 ∧
    List.count (entry_line (("foo_bar").data))
      (register_entry manifestLines (("foo_bar").data)) ≤ 1 :=
  ⟨by decide,
   (register_entry_idem_unique manifestLines (("foo_bar").data)).2 (by decide)⟩

/-- The tail of dropWhile is empty or starts with an element failing the
predicate. -/
theorem dropWhile_head_not {α : Type} (p : α → Bool) (l : List α) :
    l.dropWhile p = [] ∨ ∃ a t, l.dropWhile p = a :: t ∧ p a = false := by
  induction l with
  | nil =>
      left
      rfl
  | cons a t ih =>
      by_cases h : p a
      · simpa [List.dropWhile_cons, h] using ih
      · right
        exact ⟨a, t, by simp [List.dropWhile_cons, h], by simp [h]⟩

/-- C9: when the scripts header sits at index i and the entry is not yet
present, patching splits the manifest as header-prefix ++ section body
++ rest, changes nothing in those three parts, and inserts exactly the
entry line between the section body (which contains no bracketed header)
and the rest (which is empty or starts with the next bracketed header) —
so every change is confined to the target section's line range and the
entry becomes the last line of that section. -/
theorem register_entry_frame (lines : List (List Char)) (m : List Char) (i : Nat)
    (hmem : entry_line m ∉ lines)
    (hidx : lines.findIdx? (fun l => l == scripts_header) = some i) :
    ∃ body post,
      lines = lines.take (i + 1) ++ body ++ post ∧
      register_entry lines m
        = lines.take (i + 1) ++ body ++ entry_line m :: post ∧
      (∀ l ∈ body, is_section_header l = false) ∧
      (post = [] ∨ ∃ h2 t, post = h2 :: t ∧ is_section_header h2 = true) := by
  refine ⟨(lines.drop (i + 1)).takeWhile (fun l => !is_section_header l),
          (lines.drop (i + 1)).dropWhile (fun l => !is_section_header l),
          ?_, ?_, ?_, ?_⟩
  · rw [List.append_assoc, List.takeWhile_append_dropWhile, List.take_append_drop]
  · have htake : lines.take (section_end lines i)
        = lines.take (i + 1)
          ++ (lines.drop (i + 1)).takeWhile (fun l => !is_section_header l) := by
      unfold section_end
      rw [List.take_add]
      congr 1
      exact (List.prefix_iff_eq_take.mp (List.takeWhile_prefix _)).symm
    have hdrop : lines.drop (section_end lines i)
        = (lines.drop (i + 1)).dropWhile (fun l => !is_section_header l) := by
      unfold section_end
      rw [← List.drop_drop]
      generalize lines.drop (i + 1) = rest
      nth_rewrite 2 [← List.takeWhile_append_dropWhile
        (fun l => !is_section_header l) rest]
      exact List.drop_left _ _
    unfold register_entry
    rw [if_neg hmem, hidx]
    show lines.take (section_end lines i)
        ++ entry_line m :: lines.drop (section_end lines i) = _
    rw [htake, hdrop]
  · intro l hl
    have hp := List.mem_takeWhile_imp hl
    simpa using hp
  · rcases dropWhile_head_not (fun l => !is_section_header l) (lines.drop (i + 1))
      with h | ⟨a, t, he, hp⟩
    · left
      exact h
    · right
      exact ⟨a, t, he, by simpa using hp⟩

/-- Witness for the C9 theorem at a concrete manifest. -/
theorem register_entry_frame_w :
    ∃ body post,
      manifestLines = manifestLines.take (3 + 1) ++ body ++ post ∧
      register_entry manifestLines (("foo_bar").data)
        = manifestLines.take (3 + 1) ++ body ++ entry_line (("foo_bar").data) :: post ∧
      (∀ l ∈ body, is_section_header l = false) ∧
      (post = [] ∨ ∃ h2 t, post = h2 :: t ∧ is_section_header h2 = true) :=
  register_entry_frame manifestLines (("foo_bar").data) 3 (by decide) (by decide)

/-! Lemmas about the name converter and the test-strategy heuristic. -/

/-- The hyphen-to-underscore map only changes hyphens. -/
theorem hyphToUnd_eq_of_ne_und {c d : Char} (h : hyphToUnd c = d)
    (hd : d ≠ '_') : c = d := by
  unfold hyphToUnd at h
  by_cases hc : c = '-'
  · rw [if_pos hc] at h
    exact absurd h.symm hd
  · rw [if_neg hc] at h
    exact h

/-- If the reversed markdown extension prefixes the mapped list, it
already prefixes the original list. -/
theorem prefix_dmdot_of_map :
    ∀ (l : List Char), ['d', 'm', '.'] <+: l.map hyphToUnd →
      ['d', 'm', '.'] <+: l := by
  intro l h
  match l with
  | [] => simp at h
  | [c1] => simp [List.cons_prefix_cons] at h
  | [c1, c2] => simp [List.cons_prefix_cons] at h
  | c1 :: c2 :: c3 :: rest =>
      simp only [List.map, List.cons_prefix_cons] at h
      obtain ⟨h1, h2, h3, _⟩ := h
      have e1 := hyphToUnd_eq_of_ne_und h1.symm (by decide)
      have e2 := hyphToUnd_eq_of_ne_und h2.symm (by decide)
      have e3 := hyphToUnd_eq_of_ne_und h3.symm (by decide)
      rw [e1, e2, e3]
      simp [List.cons_prefix_cons]

/-- If ".md" is a suffix of the hyphen-to-underscore image of a list, it
is a suffix of the list itself. -/
theorem suffix_mdExt_of_map (t : List Char)
    (h : mdExt <:+ t.map hyphToUnd) : mdExt <:+ t := by
  rw [← List.reverse_prefix] at h ⊢
  rw [← List.map_reverse] at h
  have hrev : mdExt.reverse = ['d', 'm', '.'] := by decide
  rw [hrev] at h ⊢
  exact prefix_dmdot_of_map t.reverse h

/-- C4 counterexample: the round trip fails on "foo_bar.md", which ends
in the markdown extension yet maps to "foo-bar.md". -/
theorem convert_name_round_trip_cex :
    convert_name (convert_name (("foo_bar.md").data)) = (("foo-bar.md").data) ∧
    (("foo-bar.md").data) ≠ (("foo_bar.md").data) := by decide

/-- C4 (amended): the round trip `convert_name (convert_name f) = f`
holds for every f ending in ".md" whose stem (f without the final ".md")
contains no underscore and does not itself end in ".md". -/
theorem convert_name_round_trip (f : List Char)
    (h1 : mdExt.isSuffixOf f = true)
    (h2 : ∀ c ∈ f.take (f.length - 3), c ≠ '_')
    (h3 : mdExt.isSuffixOf (f.take (f.length - 3)) = false) :
    convert_name (convert_name f) = f := by
  obtain ⟨t, ht⟩ : mdExt <:+ f := by
    rw [← List.isSuffixOf_iff_suffix]
    exact h1
  have hlen : f.length = t.length + 3 := by
    rw [← ht, List.length_append]
    rfl
  have hstem : f.take (f.length - 3) = t := by
    rw [hlen]
    simp only [Nat.add_sub_cancel]
    rw [← ht]
    exact List.take_left t mdExt
  rw [hstem] at h2 h3
  have hcv1 : convert_name f = t.map hyphToUnd := by
    unfold convert_name
    rw [if_pos h1, hstem]
  have hns : mdExt.isSuffixOf (t.map hyphToUnd) = false := by
    cases hx : mdExt.isSuffixOf (t.map hyphToUnd) with
    | false => rfl
    | true =>
        have hsuf : mdExt <:+ t.map hyphToUnd := by
          rw [← List.isSuffixOf_iff_suffix]
          exact hx
        have : mdExt.isSuffixOf t = true := by
          rw [List.isSuffixOf_iff_suffix]
          exact suffix_mdExt_of_map t hsuf
        rw [this] at h3
        exact absurd h3 (by simp)
  rw [hcv1]
  unfold convert_name
  rw [if_neg (by simp [hns]), List.map_map]
  have hmap : t.map (undToHyph ∘ hyphToUnd) = t := by
    have hcongr : ∀ c ∈ t, (undToHyph ∘ hyphToUnd) c = id c := by
      intro c hc
      have hcne : c ≠ '_' := h2 c hc
      simp only [Function.comp_apply, id_eq]
      unfold hyphToUnd undToHyph
      by_cases hcc : c = '-'
      · simp [hcc]
      · simp [hcc, hcne]
    rw [List.map_congr_left hcongr, List.map_id]
  rw [hmap, ht]

/-- Witness for the amended C4 theorem at a concrete input. -/
theorem convert_name_round_trip_w :
    convert_name (convert_name (("foo-bar.md").data)) = (("foo-bar.md").data) :=
  convert_name_round_trip (("foo-bar.md").data) (by decide) (by decide) (by decide)

/-- C5: the test_strategy flag is true exactly when the spec content has
a substring whose lowercasing is the literal token "test" — i.e. a
case-insensitive occurrence of "test" anywhere in the content. -/
theorem test_strategy_iff_infix (spec_content : List Char) :
    test_strategy spec_content = true ↔
      ∃ b, b <:+: spec_content ∧ b.map Char.toLower = testToken := by
  unfold test_strategy
  rw [decide_eq_true_iff]
  constructor
  · rintro ⟨u, v, huv⟩
    rw [List.append_assoc] at huv
    obtain ⟨s1, rest, hs, _, hmap2⟩ := List.map_eq_append_iff.mp huv.symm
    obtain ⟨b, t1, hr, hmapb, _⟩ := List.map_eq_append_iff.mp hmap2
    refine ⟨b, ⟨s1, t1, ?_⟩, hmapb⟩
    rw [hs, hr, List.append_assoc]
  · rintro ⟨b, ⟨s, t, hst⟩, hb⟩
    refine ⟨s.map Char.toLower, t.map Char.toLower, ?_⟩
    rw [← hst]
    simp [hb]

/-- C8 counterexample: on an input not ending in ".md" the file-to-module
direction does not signal any error — convert_name returns a value (the
module-to-file conversion), here "foo.md" for input "foo". -/
theorem convert_name_non_md_returns_value :
    convert_name (("foo").data) = (("foo.md").data) := by decide

/-- C8 (amended): convert_name is total and has no failure mode; for an
input not ending in ".md" it performs the reverse (module-to-file)
direction, replacing underscores with hyphens and appending ".md", so
its result always ends in ".md". -/
theorem convert_name_total_on_non_md (name : List Char)
    (h : mdExt.isSuffixOf name = false) :
    convert_name name = name.map undToHyph ++ mdExt ∧
    mdExt.isSuffixOf (convert_name name) = true := by
  have hcv : convert_name name = name.map undToHyph ++ mdExt := by
    unfold convert_name
    rw [if_neg (by simp [h])]
  refine ⟨hcv, ?_⟩
  rw [hcv, List.isSuffixOf_iff_suffix]
  exact List.suffix_append _ _

/-- Witness for the amended C8 theorem at a concrete input. -/
theorem convert_name_total_on_non_md_w :
    convert_name (("foo").data) = (("foo").data).map undToHyph ++ mdExt ∧
    mdExt.isSuffixOf (convert_name (("foo").data)) = true :=
  convert_name_total_on_non_md (("foo").data) (by decide)

end TLC
